import Mathlib

/-!
Verification of the recursive-disk-size tool (src/get-recursive-disk-size.cpp).

The program has three parts:
- calculateDiskSpace: walks a directory tree with a recursive directory
  iterator and sums fs::file_size over every entry for which
  entry.is_regular_file() holds;
- getDiskSpaceUsage: a cache keyed by directory path, storing the computed
  size together with the modification timestamp observed at the start of the
  call, recomputing only when the current timestamp is strictly newer;
- main: CLI glue that checks the argument count.

The embedding models one call as a pure function over a filesystem snapshot
(modification timestamps and the tree at each path) and an explicit cache
value; C++ exceptions become an Except result, and a thrown exception leaves
the cache component unchanged, exactly as an exception thrown before the map
assignment leaves the global unordered_map unchanged.

Per the C++ standard library semantics used by the source:
- directory_entry.is_regular_file() follows symlinks (it reflects the status
  of the target), so a symlink resolving to a regular file answers true and
  fs::file_size then returns the size of the target;
- recursive_directory_iterator with default options does not descend into
  symlinks to directories;
- iteration aborts with a thrown filesystem_error on the first unreadable
  directory, and fs::file_size throws for a file whose size cannot be read;
- constructing recursive_directory_iterator on a path that is not a
  directory throws.
-/

namespace DiskSize

/-- The single error kind of the program: any filesystem failure surfaces as
a thrown exception, modelled by this type. -/
inductive IOError where
  | ioError
deriving DecidableEq

mutual
/-- A node of the filesystem tree, classified the way the walker observes
entries: by the answer of is_regular_file() and by what descending or
stat-ing the entry does. -/
inductive FSEntry where
  /-- a regular file of the given byte length -/
  | file (size : Nat)
  /-- a symlink whose target resolves to a regular file of the given byte
  length: is_regular_file() answers true and file_size returns the target
  size -/
  | symlinkToFile (targetSize : Nat)
  /-- a symlink to anything that is not a regular file (directory, special
  file, nonexistent target): is_regular_file() answers false and the default
  iterator does not descend into it -/
  | symlinkOther
  /-- a device, fifo, socket or other special entry -/
  | special
  /-- an entry for which is_regular_file() answers true but file_size
  throws (e.g. the file vanished between scan and stat) -/
  | unreadableFile
  /-- a directory that cannot be listed: the iterator throws on entering -/
  | unreadableDir
  /-- a readable directory with the given entries -/
  | dir (children : FSEntryList)
inductive FSEntryList where
  | nil
  | cons (head : FSEntry) (tail : FSEntryList)
end

/-- Sequence two walk results, propagating the first error, as the iterator
loop aborts on the first thrown exception. -/
def exceptAdd (a b : Except IOError Nat) : Except IOError Nat := do
  pure ((← a) + (← b))

mutual
/-- What the loop body plus iterator stepping contributes for one entry of
the recursive traversal: regular files add their size, symlinks resolving
to regular files add the target size via file_size, everything else adds
nothing, directories are descended into, and unreadable entries abort the
walk. -/
def walkEntry : FSEntry → Except IOError Nat
  | .file n => .ok n
  | .symlinkToFile n => .ok n
  | .symlinkOther => .ok 0
  | .special => .ok 0
  | .unreadableFile => .error .ioError
  | .unreadableDir => .error .ioError
  | .dir cs => walkEntries cs
/-- The walk over a list of sibling entries, left to right, aborting on the
first error. -/
def walkEntries : FSEntryList → Except IOError Nat
  | .nil => .ok 0
  | .cons e es => exceptAdd (walkEntry e) (walkEntries es)
end

/-- calculateDiskSpace from the source: iterate recursively over the entries
below the directory, summing file sizes of regular files. The recursive
directory iterator throws if the path is not a directory. -/
def calculateDiskSpace : FSEntry → Except IOError Nat
  | .dir cs => walkEntries cs
  | _ => .error .ioError

/-- DirectoryInfo from the source: cached size and the modification
timestamp observed when it was computed. -/
structure DirectoryInfo where
  diskSpaceUsage : Nat
  lastModified : Nat
deriving DecidableEq

/-- Directory paths are opaque keys of the cache table. -/
abbrev Path := String

/-- The cache: a finite table from paths to DirectoryInfo, modelled as an
association list with at most one binding per key. -/
abbrev Cache := List (Path × DirectoryInfo)

/-- cache.find(directory): the lookup in the unordered_map. -/
def cacheFind : Cache → Path → Option DirectoryInfo
  | [], _ => none
  | (q, info) :: rest, p => if q = p then some info else cacheFind rest p

/-- cache[directory] = info: insert, or overwrite the existing binding in
place. -/
def cacheInsert : Cache → Path → DirectoryInfo → Cache
  | [], p, info => [(p, info)]
  | (q, old) :: rest, p, info =>
    if q = p then (p, info) :: rest else (q, old) :: cacheInsert rest p info

/-- A snapshot of the filesystem as seen by one getDiskSpaceUsage call:
for each path, the result of fs::last_write_time (none when it throws, e.g.
the path does not exist or is inaccessible) and the tree rooted at the
path (consulted only if the walker runs). -/
structure FileSystem where
  modTime : Path → Option Nat
  node : Path → FSEntry

/-- getDiskSpaceUsage from the source, over an explicit cache value: read
the current modification timestamp (propagating failure), return the cached
size if the cache holds an entry whose observed timestamp is at least the
current one, otherwise walk, store the new size with the timestamp read at
the start of the call, and return it. The returned pair is the call result
and the cache after the call; a thrown exception leaves the cache as it
was. -/
def getDiskSpaceUsage (fs : FileSystem) (directory : Path) (cache : Cache) :
    Except IOError Nat × Cache :=
  match fs.modTime directory with
  | none => (Except.error IOError.ioError, cache)
  | some lastModified =>
    match cacheFind cache directory with
    | some info =>
      if lastModified ≤ info.lastModified then
        (Except.ok info.diskSpaceUsage, cache)
      else
        match calculateDiskSpace (fs.node directory) with
        | .error e => (Except.error e, cache)
        | .ok u =>
          (Except.ok u, cacheInsert cache directory ⟨u, lastModified⟩)
    | none =>
      match calculateDiskSpace (fs.node directory) with
      | .error e => (Except.error e, cache)
      | .ok u =>
        (Except.ok u, cacheInsert cache directory ⟨u, lastModified⟩)

/-- n+1 further calls to getDiskSpaceUsage after an initial one, threading
the cache; repeatGet fs p c n is the result of call number n+1 overall. -/
def repeatGet (fs : FileSystem) (p : Path) (cache : Cache) :
    Nat → Except IOError Nat × Cache
  | 0 => getDiskSpaceUsage fs p cache
  | n + 1 => getDiskSpaceUsage fs p (repeatGet fs p cache n).2

/-- The outcome of the argument check in main: the usage message written to
standard error together with the exit status. -/
structure UsageError where
  stderr : String
  exitCode : Nat
deriving DecidableEq

/-- The argument handling of main: with fewer than two argv entries (argc
< 2), print the usage message naming argv[0] to standard error and return
exit status 1; otherwise proceed with the directory argument and the
remaining arguments. -/
def mainStartup : List String → Except UsageError (String × List String)
  | _prog :: dir :: rest => Except.ok (dir, rest)
  | argv => Except.error ⟨"Usage: " ++ argv.headD "" ++ " <directory_path>\n", 1⟩

mutual
/-- A tree is readable when the walk over it meets no entry that makes the
iterator or file_size throw: no unreadable file and no unlistable
directory anywhere in it. -/
def readable : FSEntry → Bool
  | .file _ => true
  | .symlinkToFile _ => true
  | .symlinkOther => true
  | .special => true
  | .unreadableFile => false
  | .unreadableDir => false
  | .dir cs => readableList cs
/-- readable, over a list of sibling entries. -/
def readableList : FSEntryList → Bool
  | .nil => true
  | .cons e es => readable e && readableList es
end

mutual
/-- Modelled from the spec words describing computeSize: the sum of the
byte lengths of exactly the regular files reachable under the path, with
directories, symlinks, devices and every other non-regular entry
contributing 0. -/
def specRegularTotal : FSEntry → Nat
  | .file n => n
  | .dir cs => specRegularTotalList cs
  | _ => 0
/-- specRegularTotal, over a list of sibling entries. -/
def specRegularTotalList : FSEntryList → Nat
  | .nil => 0
  | .cons e es => specRegularTotal e + specRegularTotalList es
end

mutual
/-- The total the walker computes on a readable tree: entries for which
is_regular_file() answers true — regular files and symlinks resolving to
regular files — contribute the size file_size returns (for a symlink, the
size of its target); every other entry contributes 0. -/
def resolvedTotal : FSEntry → Nat
  | .file n => n
  | .symlinkToFile n => n
  | .dir cs => resolvedTotalList cs
  | _ => 0
/-- resolvedTotal, over a list of sibling entries. -/
def resolvedTotalList : FSEntryList → Nat
  | .nil => 0
  | .cons e es => resolvedTotal e + resolvedTotalList es
end

/-- The tree of the spec scenario: files of 100, 250 and 0 bytes plus a
nested subdirectory holding a 50 byte file. -/
def demoTree : FSEntry :=
  .dir (.cons (.file 100) (.cons (.file 250) (.cons (.file 0)
    (.cons (.dir (.cons (.file 50) .nil)) .nil))))

/-- A filesystem snapshot exposing demoTree at every path, with
modification timestamp 1. -/
def demoFS : FileSystem := ⟨fun _ => some 1, fun _ => demoTree⟩

/-- A snapshot whose walker would fail on every path (the tree is an
unlistable directory), with modification timestamp 5: used to witness that
a fresh cache entry is returned without the walker running. -/
def hitFS : FileSystem := ⟨fun _ => some 5, fun _ => FSEntry.unreadableDir⟩

/-- A snapshot exposing demoTree with modification timestamp 9. -/
def staleFS : FileSystem := ⟨fun _ => some 9, fun _ => demoTree⟩

/-- A snapshot with modification timestamp 9 whose tree holds a file whose
size cannot be read, so the walk fails. -/
def badWalkFS : FileSystem :=
  ⟨fun _ => some 9, fun _ => FSEntry.dir (.cons FSEntry.unreadableFile .nil)⟩

/-- A snapshot where reading the modification timestamp itself fails on
every path. -/
def noMtimeFS : FileSystem := ⟨fun _ => none, fun _ => demoTree⟩

/-- A snapshot with modification timestamp 12 whose tree holds a single 10
byte file: the state after a modification that advanced the timestamp. -/
def laterFS : FileSystem :=
  ⟨fun _ => some 12, fun _ => FSEntry.dir (.cons (.file 10) .nil)⟩

/-- The sibling list of the mixed witness tree: a 3 byte file, a symlink
to a 4 byte regular file, a device, a subdirectory with a 5 byte file, and
a symlink to a non-file. -/
def mixedList : FSEntryList :=
  .cons (.file 3) (.cons (.symlinkToFile 4) (.cons .special
    (.cons (.dir (.cons (.file 5) .nil)) (.cons .symlinkOther .nil))))

/-- Looking up a key right after inserting it yields the inserted value. -/
theorem cacheFind_cacheInsert_self (c : Cache) (p : Path) (info : DirectoryInfo) :
    cacheFind (cacheInsert c p info) p = some info := by
  induction c with
  | nil => simp [cacheInsert, cacheFind]
  | cons qi rest ih =>
    obtain ⟨q, old⟩ := qi
    by_cases hq : q = p
    · simp [cacheInsert, cacheFind, hq]
    · simp [cacheInsert, cacheFind, hq, ih]

/-- When the cached timestamp is strictly older than the current one (or no
entry exists), the call walks, overwrites the entry with the new size and
the timestamp read at the start of the call, and returns the new size. -/
theorem getDiskSpaceUsage_recompute_eq (fs : FileSystem) (p : Path) (c : Cache)
    (t u : Nat) (hmt : fs.modTime p = some t)
    (hstale : ∀ info, cacheFind c p = some info → info.lastModified < t)
    (hwalk : calculateDiskSpace (fs.node p) = Except.ok u) :
    getDiskSpaceUsage fs p c = (Except.ok u, cacheInsert c p ⟨u, t⟩) := by
  cases hfind : cacheFind c p with
  | none => simp only [getDiskSpaceUsage, hmt, hfind, hwalk]
  | some info =>
    have hlt := hstale info hfind
    simp only [getDiskSpaceUsage, hmt, hfind]
    rw [if_neg (by omega)]
    simp only [hwalk]

/-- After any successful call there are a timestamp t read at the start of
the call and a cache entry for the path whose stored size is the returned
value and whose observed timestamp is at least t. -/
theorem getDiskSpaceUsage_ok_inv (fs : FileSystem) (p : Path) (c : Cache)
    (v : Nat) (c' : Cache) (h : getDiskSpaceUsage fs p c = (Except.ok v, c')) :
    ∃ t info, fs.modTime p = some t ∧ cacheFind c' p = some info ∧
      info.diskSpaceUsage = v ∧ t ≤ info.lastModified := by
  cases hmt : fs.modTime p with
  | none =>
    simp only [getDiskSpaceUsage, hmt] at h
    exact absurd h (by simp)
  | some t =>
    refine ⟨t, ?_⟩
    cases hfind : cacheFind c p with
    | some info =>
      simp only [getDiskSpaceUsage, hmt, hfind] at h
      by_cases hle : t ≤ info.lastModified
      · rw [if_pos hle] at h
        injection h with h1 h2
        injection h1 with h1
        exact ⟨info, rfl, by rw [← h2]; exact hfind, h1, hle⟩
      · rw [if_neg hle] at h
        cases hwalk : calculateDiskSpace (fs.node p) with
        | error e =>
          simp only [hwalk] at h
          exact absurd h (by simp)
        | ok u =>
          simp only [hwalk] at h
          injection h with h1 h2
          injection h1 with h1
          exact ⟨⟨u, t⟩, rfl,
            by rw [← h2]; exact cacheFind_cacheInsert_self c p ⟨u, t⟩, h1, le_refl t⟩
    | none =>
      simp only [getDiskSpaceUsage, hmt, hfind] at h
      cases hwalk : calculateDiskSpace (fs.node p) with
      | error e =>
        simp only [hwalk] at h
        exact absurd h (by simp)
      | ok u =>
        simp only [hwalk] at h
        injection h with h1 h2
        injection h1 with h1
        exact ⟨⟨u, t⟩, rfl,
          by rw [← h2]; exact cacheFind_cacheInsert_self c p ⟨u, t⟩, h1, le_refl t⟩

/-- A successful call leaves the cache in a state from which the same call
returns the same value and the same cache: the state is a fixed point. -/
theorem getDiskSpaceUsage_stable (fs : FileSystem) (p : Path) (c : Cache)
    (v : Nat) (c' : Cache) (h : getDiskSpaceUsage fs p c = (Except.ok v, c')) :
    getDiskSpaceUsage fs p c' = (Except.ok v, c') := by
  obtain ⟨t, info, hmt, hfind, hv, hle⟩ := getDiskSpaceUsage_ok_inv fs p c v c' h
  simp only [getDiskSpaceUsage, hmt, hfind]
  rw [if_pos hle, hv]

/-- C1. For a path present in the cache whose current modification
timestamp is at most the observed one (equality counting as not stale), the
call returns the cached size and leaves the cache unchanged; the statement
holds for every filesystem snapshot with that timestamp, whatever tree the
walker would see, so the walker is never consulted. -/
theorem getSize_fresh_hit (fs : FileSystem) (p : Path) (c : Cache)
    (info : DirectoryInfo) (t : Nat) (hmt : fs.modTime p = some t)
    (hfind : cacheFind c p = some info) (hle : t ≤ info.lastModified) :
    getDiskSpaceUsage fs p c = (Except.ok info.diskSpaceUsage, c) := by
  simp only [getDiskSpaceUsage, hmt, hfind]
  rw [if_pos hle]

/-- Witness for C1 at a concrete input: the snapshot has timestamp 5, the
cached entry observed 7 with size 42, and the tree at the path is an
unlistable directory the walker would fail on, so the returned 42 with the
cache unchanged shows the walk was skipped. -/
theorem getSize_fresh_hit_witness :
    getDiskSpaceUsage hitFS "d" [("d", ⟨42, 7⟩)] = (Except.ok 42, [("d", ⟨42, 7⟩)]) :=
  getSize_fresh_hit hitFS "d" [("d", ⟨42, 7⟩)] ⟨42, 7⟩ 5 rfl rfl (by decide)

/-- C2. For a path absent from the cache or whose cached observed timestamp
is strictly older than the current one, the call computes the size via the
walker, stores the entry with the new size paired with the timestamp read
at the start of the call, and returns the new size; the stored entry is
found in the resulting cache. -/
theorem getSize_recompute (fs : FileSystem) (p : Path) (c : Cache)
    (t u : Nat) (hmt : fs.modTime p = some t)
    (hstale : ∀ info, cacheFind c p = some info → info.lastModified < t)
    (hwalk : calculateDiskSpace (fs.node p) = Except.ok u) :
    getDiskSpaceUsage fs p c = (Except.ok u, cacheInsert c p ⟨u, t⟩) ∧
    cacheFind (cacheInsert c p ⟨u, t⟩) p = some ⟨u, t⟩ :=
  ⟨getDiskSpaceUsage_recompute_eq fs p c t u hmt hstale hwalk,
   cacheFind_cacheInsert_self c p ⟨u, t⟩⟩

/-- Witness for C2 at a concrete input: the entry observed timestamp 3, the
current timestamp is 9, the walk over demoTree yields 400, and the entry is
overwritten in place with size 400 and timestamp 9. -/
theorem getSize_recompute_witness :
    getDiskSpaceUsage staleFS "d" [("d", ⟨5, 3⟩)] = (Except.ok 400, [("d", ⟨400, 9⟩)]) ∧
    cacheFind [("d", ⟨400, 9⟩)] "d" = some ⟨400, 9⟩ :=
  getSize_recompute staleFS "d" [("d", ⟨5, 3⟩)] 9 400 rfl
    (fun info hi => by
      have : info = ⟨5, 3⟩ := by
        have h5 : cacheFind [("d", (⟨5, 3⟩ : DirectoryInfo))] "d" = some ⟨5, 3⟩ := rfl
        rw [h5] at hi
        injection hi with hi
        exact hi.symm
      rw [this]
      decide)
    rfl

/-- C3. When the walk inside a call fails, the error propagates and the
cache — in particular any pre-existing entry for the path — is left exactly
as it was before the call. -/
theorem getSize_walk_error (fs : FileSystem) (p : Path) (c : Cache)
    (t : Nat) (e : IOError) (hmt : fs.modTime p = some t)
    (hstale : ∀ info, cacheFind c p = some info → info.lastModified < t)
    (hwalk : calculateDiskSpace (fs.node p) = Except.error e) :
    getDiskSpaceUsage fs p c = (Except.error e, c) := by
  cases hfind : cacheFind c p with
  | none => simp only [getDiskSpaceUsage, hmt, hfind, hwalk]
  | some info =>
    have hlt := hstale info hfind
    simp only [getDiskSpaceUsage, hmt, hfind]
    rw [if_neg (by omega)]
    simp only [hwalk]

/-- Witness for C3 at a concrete input: the stale entry observed timestamp
3 with size 5, the current timestamp is 9, the walk fails on a file whose
size cannot be read, and the call returns the error with the old entry
intact. -/
theorem getSize_walk_error_witness :
    getDiskSpaceUsage badWalkFS "d" [("d", ⟨5, 3⟩)] =
      (Except.error IOError.ioError, [("d", ⟨5, 3⟩)]) :=
  getSize_walk_error badWalkFS "d" [("d", ⟨5, 3⟩)] 9 IOError.ioError rfl
    (fun info hi => by
      have : info = ⟨5, 3⟩ := by
        have h5 : cacheFind [("d", (⟨5, 3⟩ : DirectoryInfo))] "d" = some ⟨5, 3⟩ := rfl
        rw [h5] at hi
        injection hi with hi
        exact hi.symm
      rw [this]
      decide)
    rfl

/-- C5. When reading the modification timestamp fails (the path does not
exist or is inaccessible), the call fails with the error and the cache is
untouched — in particular a cached entry for the path is never returned as
a fallback, since the result is the same for every cache. -/
theorem getSize_modTime_error (fs : FileSystem) (p : Path) (c : Cache)
    (hmt : fs.modTime p = none) :
    getDiskSpaceUsage fs p c = (Except.error IOError.ioError, c) := by
  simp only [getDiskSpaceUsage, hmt]

/-- Witness for C5 at a concrete input: the timestamp read fails while the
cache holds an entry for the path; the call errors rather than returning
the cached 42. -/
theorem getSize_modTime_error_witness :
    getDiskSpaceUsage noMtimeFS "d" [("d", ⟨42, 7⟩)] =
      (Except.error IOError.ioError, [("d", ⟨42, 7⟩)]) :=
  getSize_modTime_error noMtimeFS "d" [("d", ⟨42, 7⟩)] rfl

/-- C7. On a directory holding regular files of 100, 250 and 0 bytes plus a
nested subdirectory holding a 50 byte file, getSize returns 400. -/
theorem getSize_demo_scenario :
    getDiskSpaceUsage demoFS "demo" [] = (Except.ok 400, [("demo", ⟨400, 1⟩)]) := rfl

/-- C6. If the filesystem snapshot is unchanged between calls, every later
call returns the same numeric value as a first successful call. -/
theorem getSize_idempotent (fs : FileSystem) (p : Path) (c : Cache)
    (v : Nat) (c' : Cache) (h : getDiskSpaceUsage fs p c = (Except.ok v, c')) :
    ∀ n, (repeatGet fs p c n).1 = Except.ok v := by
  have key : ∀ n, repeatGet fs p c n = (Except.ok v, c') := by
    intro n
    induction n with
    | zero => simpa [repeatGet] using h
    | succ n ih =>
      rw [repeatGet, ih]
      exact getDiskSpaceUsage_stable fs p c v c' h
  intro n
  rw [key n]

/-- Witness for C6 at a concrete input: after the first call on demoFS
returns 400, the third call still returns 400. -/
theorem getSize_idempotent_witness :
    (repeatGet demoFS "demo" [] 2).1 = Except.ok 400 :=
  getSize_idempotent demoFS "demo" [] 400 [("demo", ⟨400, 1⟩)] rfl 2

/-- C9. After every successful call the cache holds an entry for the path
whose stored size equals the returned value, on the fast path, on first
insertion and on stale overwrite alike. -/
theorem getSize_cache_reflects_result (fs : FileSystem) (p : Path) (c : Cache)
    (v : Nat) (c' : Cache) (h : getDiskSpaceUsage fs p c = (Except.ok v, c')) :
    ∃ info, cacheFind c' p = some info ∧ info.diskSpaceUsage = v := by
  obtain ⟨t, info, _, hfind, hv, _⟩ := getDiskSpaceUsage_ok_inv fs p c v c' h
  exact ⟨info, hfind, hv⟩

/-- Witness for C9 at a concrete input: after the first call on demoFS
returns 400, the cache holds an entry of size 400 for the path. -/
theorem getSize_cache_reflects_result_witness :
    ∃ info, cacheFind [("demo", ⟨400, 1⟩)] "demo" = some info ∧
      info.diskSpaceUsage = 400 :=
  getSize_cache_reflects_result demoFS "demo" [] 400 [("demo", ⟨400, 1⟩)] rfl

/-- C8. Invoked with no directory argument (argc < 2), main writes the
usage message naming argv[0] to standard error and exits with status 1. -/
theorem main_usage_error (argv : List String) (h : argv.length < 2) :
    mainStartup argv =
      Except.error ⟨"Usage: " ++ argv.headD "" ++ " <directory_path>\n", 1⟩ := by
  match argv with
  | [] => rfl
  | [p] => rfl
  | p :: d :: r => simp at h; omega

/-- Witness for C8 at a concrete input: argv holding only the program name
yields the usage message on standard error and exit status 1. -/
theorem main_usage_error_witness :
    mainStartup ["prog"] = Except.error ⟨"Usage: prog <directory_path>\n", 1⟩ :=
  main_usage_error ["prog"] (by decide)

mutual
/-- On every readable entry the walk succeeds and returns the resolved
total: sizes reported by file_size for entries with is_regular_file()
true. -/
theorem walkEntry_eq_resolvedTotal :
    (e : FSEntry) → readable e = true → walkEntry e = Except.ok (resolvedTotal e)
  | .file _, _ => rfl
  | .symlinkToFile _, _ => rfl
  | .symlinkOther, _ => rfl
  | .special, _ => rfl
  | .unreadableFile, h => by simp [readable] at h
  | .unreadableDir, h => by simp [readable] at h
  | .dir cs, h => by
    have hcs : readableList cs = true := by simpa [readable] using h
    have := walkEntries_eq_resolvedTotal cs hcs
    simpa [walkEntry, resolvedTotal] using this
/-- walkEntry_eq_resolvedTotal, over a list of sibling entries. -/
theorem walkEntries_eq_resolvedTotal :
    (l : FSEntryList) → readableList l = true →
      walkEntries l = Except.ok (resolvedTotalList l)
  | .nil, _ => rfl
  | .cons e es, h => by
    have h1 : readable e = true := by
      have := h
      simp [readableList, Bool.and_eq_true] at this
      exact this.1
    have h2 : readableList es = true := by
      have := h
      simp [readableList, Bool.and_eq_true] at this
      exact this.2
    have he := walkEntry_eq_resolvedTotal e h1
    have hes := walkEntries_eq_resolvedTotal es h2
    simp [walkEntries, resolvedTotalList, exceptAdd, he, hes, Bind.bind, Except.bind,
      Pure.pure, Except.pure]
end

/-- C4 fails as stated: the claim says symlinks contribute 0, but
is_regular_file() follows symlinks, so a readable directory holding one
symlink to a 7 byte regular file makes the walker return 7 while the sum
described by the spec is 0. -/
theorem calculateDiskSpace_symlink_counterexample :
    readable (FSEntry.dir (.cons (.symlinkToFile 7) .nil)) = true ∧
    calculateDiskSpace (FSEntry.dir (.cons (.symlinkToFile 7) .nil)) = Except.ok 7 ∧
    specRegularTotal (FSEntry.dir (.cons (.symlinkToFile 7) .nil)) = 0 :=
  ⟨rfl, rfl, rfl⟩

/-- C4 (amended). For every readable directory tree, computeSize returns
the sum of the sizes of the entries the walker observes as regular files —
regular files at their byte length and symlinks resolving to regular files
at the byte length of the target — while directories, other symlinks,
devices and every other non-regular entry contribute 0, and only
directories are descended into. -/
theorem calculateDiskSpace_correct (cs : FSEntryList)
    (h : readable (FSEntry.dir cs) = true) :
    calculateDiskSpace (FSEntry.dir cs) = Except.ok (resolvedTotal (FSEntry.dir cs)) := by
  have hcs : readableList cs = true := by simpa [readable] using h
  have := walkEntries_eq_resolvedTotal cs hcs
  simpa [calculateDiskSpace, resolvedTotal] using this

/-- Witness for the amended C4 at a concrete input: a directory holding a 3
byte file, a symlink to a 4 byte regular file, a device, a subdirectory
with a 5 byte file and a symlink to a non-file totals 3 + 4 + 5 + 4 = 12
with the symlink target counted. -/
theorem calculateDiskSpace_correct_witness :
    calculateDiskSpace (FSEntry.dir mixedList) = Except.ok 12 :=
  calculateDiskSpace_correct mixedList rfl

/-- C10. On a successful recompute the stored entry carries the timestamp
read at the start of the call, before the walk; consequently, when a
modification during the walk advanced the timestamp, any later call that
reads the strictly newer timestamp recomputes via the walker instead of
returning the cached value. -/
theorem getSize_stores_prewalk_timestamp (fs : FileSystem) (p : Path) (c : Cache)
    (t u : Nat) (hmt : fs.modTime p = some t)
    (hstale : ∀ info, cacheFind c p = some info → info.lastModified < t)
    (hwalk : calculateDiskSpace (fs.node p) = Except.ok u)
    (fs2 : FileSystem) (t2 u2 : Nat) (hmt2 : fs2.modTime p = some t2)
    (hadv : t < t2) (hwalk2 : calculateDiskSpace (fs2.node p) = Except.ok u2) :
    cacheFind (getDiskSpaceUsage fs p c).2 p = some ⟨u, t⟩ ∧
    (getDiskSpaceUsage fs2 p (getDiskSpaceUsage fs p c).2).1 = Except.ok u2 := by
  have h1 := getDiskSpaceUsage_recompute_eq fs p c t u hmt hstale hwalk
  rw [h1]
  refine ⟨cacheFind_cacheInsert_self c p ⟨u, t⟩, ?_⟩
  have hstale2 : ∀ info, cacheFind (cacheInsert c p ⟨u, t⟩) p = some info →
      info.lastModified < t2 := by
    intro info hi
    rw [cacheFind_cacheInsert_self c p ⟨u, t⟩] at hi
    injection hi with hi
    rw [← hi]
    exact hadv
  have h2 := getDiskSpaceUsage_recompute_eq fs2 p (cacheInsert c p ⟨u, t⟩) t2 u2
    hmt2 hstale2 hwalk2
  rw [h2]

/-- Witness for C10 at a concrete input: the first call stores 400 with the
pre-walk timestamp 9; a later snapshot with timestamp 12 and a tree holding
one 10 byte file makes the next call recompute and return 10. -/
theorem getSize_stores_prewalk_timestamp_witness :
    cacheFind (getDiskSpaceUsage staleFS "d" []).2 "d" = some ⟨400, 9⟩ ∧
    (getDiskSpaceUsage laterFS "d" (getDiskSpaceUsage staleFS "d" []).2).1 =
      Except.ok 10 :=
  getSize_stores_prewalk_timestamp staleFS "d" [] 9 400 rfl
    (fun info hi => by simp [cacheFind] at hi) rfl
    laterFS 12 10 rfl (by decide) rfl

end DiskSize
